import Mathlib

/-!
Shallow embedding of `generate_cards_pdf.py` (card-pdf-generator).

Python strings are modelled as Lean `String` (a wrapper around `List Char`);
Python ints as `Int`/`Nat`; Python floats appearing in the size arithmetic as
exact rationals `ℚ`; Python dicts as association lists with latest-insertion
lookup; filesystem effects as an explicit event trace.
-/

/-- Python `str.lower()` (ASCII case folding, which is what the filenames use). -/
def lowStr (s : String) : String := String.mk (s.toList.map Char.toLower)

/-- Python whitespace characters recognised by `str.strip()`. -/
def isPyWs (c : Char) : Bool :=
  c = ' ' || c = '\t' || c = '\n' || c = '\r' || c = '\x0b' || c = '\x0c'

/-- Python `str.strip()`: drop leading and trailing whitespace. -/
def pyStrip (s : String) : String :=
  String.mk (((s.toList.dropWhile isPyWs).reverse.dropWhile isPyWs).reverse)

/-- Split a character list at every `','`, keeping empty pieces, as Python
`str.split(',')` does. -/
def splitCommaAux : List Char → List Char → List (List Char)
  | [], acc => [acc.reverse]
  | c :: rest, acc =>
    if c = ',' then acc.reverse :: splitCommaAux rest []
    else splitCommaAux rest (c :: acc)

/-- Python `str.split(',')`. -/
def splitComma (s : String) : List String :=
  (splitCommaAux s.toList []).map String.mk

/-- Numeric value of a run of decimal digit characters. -/
def digitsVal (ds : List Char) : Nat :=
  ds.foldl (fun n c => 10 * n + (c.toNat - 48)) 0

/-- Python `int(s)` on a stripped string: optional sign followed by one or
more decimal digits; anything else raises `ValueError`, modelled as `none`. -/
def pyToInt (s : String) : Option Int :=
  let t := (pyStrip s).toList
  match t with
  | '+' :: ds => if ds ≠ [] ∧ ds.all Char.isDigit then some (digitsVal ds) else none
  | '-' :: ds => if ds ≠ [] ∧ ds.all Char.isDigit then some (-(digitsVal ds : Int)) else none
  | ds => if ds ≠ [] ∧ ds.all Char.isDigit then some (digitsVal ds) else none

/-- Base name of `os.path.splitext`: the extension starts at the last dot,
where leading dots of the filename do not count as extension separators. -/
def splitextBase (f : String) : String :=
  let cs := f.toList
  let lead := cs.takeWhile (fun c => c = '.')
  let rest := cs.dropWhile (fun c => c = '.')
  if rest.contains '.' then
    String.mk (lead ++ ((rest.reverse.dropWhile (fun c => c ≠ '.')).drop 1).reverse)
  else f

/-- Scan for the leftmost occurrence of `-x` followed by at least one decimal
digit, returning the maximal digit run's value, as `re.search(r'-x(\d+)')`
does in `parse_quantity_from_name` (line 19). -/
def qtyScan : List Char → Option Nat
  | [] => none
  | '-' :: rest =>
    match rest with
    | 'x' :: rest2 =>
      let ds := rest2.takeWhile Char.isDigit
      if ds.isEmpty then qtyScan rest else some (digitsVal ds)
    | _ => qtyScan rest
  | _ :: rest => qtyScan rest

/-- `parse_quantity_from_name` (lines 18-20): embedded `-x<N>` pattern, else 1. -/
def parse_quantity_from_name (f : String) : Nat :=
  (qtyScan f.toList).getD 1

/-- The quantity sidecar map: a Python dict from base name to int, modelled as
an association list where the most recent insertion is at the head (so
`List.lookup`, which takes the first hit, matches dict-overwrite semantics). -/
abbrev QMap : Type := List (String × Int)

/-- Whether a raw line contains a comma (`if ',' in line`, line 27). -/
def lineHasComma (l : String) : Bool := l.toList.contains ','

/-- One iteration of the `parse_quantity_file` loop body (lines 27-29):
`some none` when the comma-less line is skipped, `some (some (name, qty))`
when `name, qty = line.strip().split(',')` and `int(qty.strip())` succeed,
and `none` when the unpacking or the `int` conversion raises. -/
def qfLine (l : String) : Option (Option (String × Int)) :=
  if lineHasComma l then
    match splitComma (pyStrip l) with
    | [n, q] =>
      match pyToInt q with
      | some v => some (some (pyStrip n, v))
      | none => none
    | _ => none
  else some none

/-- The loop of `parse_quantity_file` (lines 26-29): process lines in order,
accumulating the map; on the first exception return what has been accumulated
so far together with a warning flag, as the `except` clause (lines 30-31)
does. -/
def qfGo : List String → QMap → QMap × Bool
  | [], m => (m, false)
  | l :: rest, m =>
    match qfLine l with
    | some (some kv) => qfGo rest (kv :: m)
    | some none => qfGo rest m
    | none => (m, true)

/-- `parse_quantity_file` (lines 22-32). The file's contents are `none` when
the file cannot be read (`open` raises) and `some lines` otherwise. The
second component records whether the warning was printed. -/
def parse_quantity_file : Option (List String) → QMap × Bool
  | none => ([], true)
  | some ls => qfGo ls []

/-- Image filter of `collect_images` (line 46):
`f.lower().endswith(('.jpg', '.jpeg', '.png'))`. -/
def isImageFile (f : String) : Bool :=
  [".jpg", ".jpeg", ".png"].any (fun e => e.toList.isSuffixOf (lowStr f).toList)

/-- Quantity resolution for one file (line 48):
`qty_map.get(name, parse_quantity_from_name(f))` where `name` is the base
name of `f` with its extension stripped (line 47). -/
def resolve_qty (qm : QMap) (f : String) : Int :=
  match List.lookup (splitextBase f) qm with
  | some q => q
  | none => (parse_quantity_from_name f : Int)

/-- Sort key order used by `sorted(files, key=lambda x: x.lower())` (line 39). -/
def keyLe (a b : String) : Prop := lowStr a ≤ lowStr b

instance : DecidableRel keyLe := fun a b => inferInstanceAs (Decidable (lowStr a ≤ lowStr b))

instance : IsTotal String keyLe := ⟨fun a b => le_total (lowStr a) (lowStr b)⟩

instance : IsTrans String keyLe := ⟨fun _ _ _ h1 h2 => le_trans h1 h2⟩

/-- One directory level of `collect_images` (lines 39, 45-50): sort the
directory's files case-insensitively (Python's sort is stable, like insertion
sort), keep image files, and emit each one `range(qty)` times (so a
non-positive quantity emits nothing). The per-level root prefix joined by
`os.path.join` is constant within a level and omitted. -/
def collectLevel (qm : QMap) (files : List String) : List String :=
  (((files.insertionSort keyLe).filter (fun f => isImageFile f)).map
    (fun f => List.replicate (resolve_qty qm f).toNat f)).flatten

/-- `collect_images` (lines 34-51) over the directory levels visited by
`os.walk`, each level carrying its own file list and parsed quantity map. -/
def collect_images (levels : List (QMap × List String)) : List String :=
  (levels.map (fun lv => collectLevel lv.1 lv.2)).flatten

/-- `reportlab.lib.units.inch` (72 points). -/
def inchPt : ℚ := 72

/-- `CARD_WIDTH` (line 12): `2.5 * inch`. -/
def CARD_WIDTH : ℚ := 2.5 * inchPt

/-- `CARD_HEIGHT` (line 12): `3.5 * inch`. -/
def CARD_HEIGHT : ℚ := 3.5 * inchPt

/-- `PAGE_WIDTH` (line 13): letter width, 612 points. -/
def PAGE_WIDTH : ℚ := 612

/-- `PAGE_HEIGHT` (line 13): letter height, 792 points. -/
def PAGE_HEIGHT : ℚ := 792

/-- `CARDS_PER_ROW` (line 14): `int(PAGE_WIDTH // CARD_WIDTH)`. -/
def CARDS_PER_ROW : ℕ := (⌊PAGE_WIDTH / CARD_WIDTH⌋).toNat

/-- `CARDS_PER_COL` (line 15): `int(PAGE_HEIGHT // CARD_HEIGHT)`. -/
def CARDS_PER_COL : ℕ := (⌊PAGE_HEIGHT / CARD_HEIGHT⌋).toNat

/-- `total_grid_width` (line 64). -/
def total_grid_width : ℚ := CARDS_PER_ROW * CARD_WIDTH

/-- `total_grid_height` (line 65). -/
def total_grid_height : ℚ := CARDS_PER_COL * CARD_HEIGHT

/-- `margin_x` (line 66). -/
def margin_x : ℚ := (PAGE_WIDTH - total_grid_width) / 2

/-- `margin_y` (line 67). -/
def margin_y : ℚ := (PAGE_HEIGHT - total_grid_height) / 2

/-- The grid cursor of `save_pdf`: column index `x_idx`, row index `y_idx`,
and the number of `showPage` calls so far (the current page index). -/
structure GridState where
  x : ℕ
  y : ℕ
  page : ℕ
deriving DecidableEq

/-- The cursor update after drawing one card (lines 79-85). -/
def gridStep (s : GridState) : GridState :=
  if CARDS_PER_ROW ≤ s.x + 1 then
    if CARDS_PER_COL ≤ s.y + 1 then { x := 0, y := 0, page := s.page + 1 }
    else { x := 0, y := s.y + 1, page := s.page }
  else { x := s.x + 1, y := s.y, page := s.page }

/-- Cursor state before drawing the card at sequence index `i`
(`x_idx = y_idx = 0` initially, line 68). -/
def cardState (i : ℕ) : GridState := gridStep^[i] { x := 0, y := 0, page := 0 }

/-- The drawing loop of `save_pdf` (lines 70-85): for each card, the page it
is drawn on and the `drawImage` position `(x_pos, y_pos)` (lines 71-73),
threading the grid cursor. -/
def drawLoop : List String → GridState → List (String × ℚ × ℚ × ℕ)
  | [], _ => []
  | c :: cs, s =>
    (c, margin_x + s.x * CARD_WIDTH,
     PAGE_HEIGHT - margin_y - (s.y + 1) * CARD_HEIGHT, s.page) :: drawLoop cs (gridStep s)

/-- A filesystem effect: writing a file at a path, or removing one. -/
inductive FsEvent where
  | write (path : String) : FsEvent
  | remove (path : String) : FsEvent
deriving DecidableEq

/-- One part's slice of the deck (line 59):
`cards[part_index * cards_per_part : (part_index + 1) * cards_per_part]`. -/
def partSlice (cards : List String) (cpp i : ℕ) : List String :=
  (cards.drop (i * cpp)).take cpp

/-- Part file naming (line 60): Python `str.replace` substitutes every
non-overlapping occurrence of the pattern, scanning left to right. The fuel
argument only forces structural recursion; each step consumes one unit of
fuel and at least one input character (the pattern is nonempty in the
matching branch), so starting the fuel at the input length never exhausts it. -/
def replaceAllAux (pat repl : List Char) : ℕ → List Char → List Char
  | _, [] => []
  | 0, l => l
  | fuel + 1, c :: cs =>
    if pat.isPrefixOf (c :: cs) ∧ pat ≠ [] then
      repl ++ replaceAllAux pat repl fuel ((c :: cs).drop pat.length)
    else c :: replaceAllAux pat repl fuel cs

/-- Python `s.replace(pat, repl)` on character lists. -/
def replaceAll (pat repl l : List Char) : List Char :=
  replaceAllAux pat repl l.length l

/-- Python `output_path.replace(".pdf", "-part{i+1}.pdf")` (line 60). -/
def partPath (outputPath : String) (i : ℕ) : String :=
  String.mk (replaceAll (".pdf").toList (("-part" ++ toString (i + 1) ++ ".pdf")).toList
    outputPath.toList)

/-- `save_pdf` (lines 57-94), abstracted over the PDF renderer: `sizeOf`
gives the byte size `len(pdf_data)` of rendering a card list. Returns the
filesystem events in order (per-card temp removals happen during the loop,
before the final file write) and the returned size. Slicing and part naming
happen only when `cards_per_part` is truthy (line 58); temp removal happens
when `part_index` is not `None` (lines 76-77); the assembled PDF is always
written to the (possibly part-suffixed) output path (lines 91-92). -/
def save_pdf (size_of : List String → ℕ) (cards : List String) (output_path : String)
    (cards_per_part part_index : Option ℕ) : List FsEvent × ℕ :=
  match cards_per_part, part_index with
  | some cpp, some i =>
    if cpp = 0 then
      (cards.map FsEvent.remove ++ [FsEvent.write output_path], size_of cards)
    else
      ((partSlice cards cpp i).map FsEvent.remove ++ [FsEvent.write (partPath output_path i)],
        size_of (partSlice cards cpp i))
  | none, some _ => (cards.map FsEvent.remove ++ [FsEvent.write output_path], size_of cards)
  | _, none => ([FsEvent.write output_path], size_of cards)

/-- Python truthiness of the optional `max_size_mb` (`if not max_size_mb`,
line 109): `None` and `0` are falsy. -/
def pyTruthy : Option ℕ → Bool
  | none => false
  | some n => decide (n ≠ 0)

/-- One megabyte, `1024 * 1024` (lines 116, 126). -/
def MB : ℕ := 1024 * 1024

/-- `avg_card_size = size / len(all_cards)` (line 125), float division
modelled as exact rational division. -/
def avgCardSize (size n : ℕ) : ℚ := (size : ℚ) / (n : ℚ)

/-- `cards_per_part = int((max_size_mb * 1024 * 1024) // avg_card_size)`
(line 126); the value is nonnegative, so `int()` truncation is the floor. -/
def cardsPerPartOf (capBytes size n : ℕ) : ℕ :=
  (⌊(capBytes : ℚ) / avgCardSize size n⌋).toNat

/-- `total_parts = (len(all_cards) + cards_per_part - 1) // cards_per_part`
(line 127), the ceiling of `n / cpp` by integer arithmetic. -/
def totalPartsOf (n cpp : ℕ) : ℕ := (n + cpp - 1) / cpp

/-- `generate_pdf_with_size_limit` (lines 96-134), abstracted over the PDF
renderer (`size_of`) and the temp-name generator (`temp_of`, modelling the
uuid-suffixed path of line 105). Returns the ordered filesystem events of the
run and a flag that is `true` when the run aborts with the unhandled
`ZeroDivisionError` of line 127 (reached when `cards_per_part` computes to 0;
the division `size / len(all_cards)` of line 125 with an empty deck is the
same abort point and is folded into the flag). -/
def generate_pdf_with_size_limit (size_of : List String → ℕ) (temp_of : String → String)
    (image_paths : List String) (output_path : String) (max_size_mb : Option ℕ) :
    List FsEvent × Bool :=
  let all_cards := image_paths.map temp_of
  let tempWrites := all_cards.map FsEvent.write
  if pyTruthy max_size_mb = false then
    (tempWrites ++ (save_pdf size_of all_cards output_path none none).1, false)
  else
    let cap := max_size_mb.getD 0
    let measured := save_pdf size_of all_cards output_path none none
    if measured.2 ≤ cap * MB then
      (tempWrites ++ measured.1 ++ all_cards.map FsEvent.remove, false)
    else
      let cards_per_part := cardsPerPartOf (cap * MB) measured.2 all_cards.length
      if cards_per_part = 0 then
        (tempWrites ++ measured.1, true)
      else
        let total_parts := totalPartsOf all_cards.length cards_per_part
        (tempWrites ++ measured.1 ++
          ((List.range total_parts).map
            (fun i => (save_pdf size_of all_cards output_path
              (some cards_per_part) (some i)).1)).flatten, false)

/-! Helper lemmas about the embedded definitions. -/

theorem save_pdf_full (so : List String → ℕ) (cards : List String) (out : String) :
    save_pdf so cards out none none = ([FsEvent.write out], so cards) := rfl

theorem save_pdf_part (so : List String → ℕ) (cards : List String) (out : String)
    (cpp i : ℕ) (h : cpp ≠ 0) :
    save_pdf so cards out (some cpp) (some i) =
      ((partSlice cards cpp i).map FsEvent.remove ++ [FsEvent.write (partPath out i)],
        so (partSlice cards cpp i)) := by
  simp [save_pdf, h]

theorem gen_no_cap (so : List String → ℕ) (tmp : String → String) (ips : List String)
    (out : String) (m : Option ℕ) (hm : pyTruthy m = false) :
    generate_pdf_with_size_limit so tmp ips out m =
      ((ips.map tmp).map FsEvent.write ++ [FsEvent.write out], false) := by
  simp [generate_pdf_with_size_limit, hm, save_pdf_full]

theorem gen_accepted (so : List String → ℕ) (tmp : String → String) (ips : List String)
    (out : String) (m : Option ℕ) (hm : pyTruthy m = true)
    (hsz : so (ips.map tmp) ≤ m.getD 0 * MB) :
    generate_pdf_with_size_limit so tmp ips out m =
      ((ips.map tmp).map FsEvent.write ++ [FsEvent.write out] ++
        (ips.map tmp).map FsEvent.remove, false) := by
  simp [generate_pdf_with_size_limit, hm, save_pdf_full, hsz]

theorem gen_abort (so : List String → ℕ) (tmp : String → String) (ips : List String)
    (out : String) (m : Option ℕ) (hm : pyTruthy m = true)
    (hsz : ¬ so (ips.map tmp) ≤ m.getD 0 * MB)
    (hcpp : cardsPerPartOf (m.getD 0 * MB) (so (ips.map tmp)) ips.length = 0) :
    generate_pdf_with_size_limit so tmp ips out m =
      ((ips.map tmp).map FsEvent.write ++ [FsEvent.write out], true) := by
  simp [generate_pdf_with_size_limit, hm, save_pdf_full, hsz, hcpp]

theorem gen_split (so : List String → ℕ) (tmp : String → String) (ips : List String)
    (out : String) (m : Option ℕ) (cpp : ℕ) (hm : pyTruthy m = true)
    (hsz : ¬ so (ips.map tmp) ≤ m.getD 0 * MB)
    (hcpp : cardsPerPartOf (m.getD 0 * MB) (so (ips.map tmp)) ips.length = cpp)
    (hne : cpp ≠ 0) :
    generate_pdf_with_size_limit so tmp ips out m =
      ((ips.map tmp).map FsEvent.write ++ [FsEvent.write out] ++
        ((List.range (totalPartsOf ips.length cpp)).map
          (fun i => (partSlice (ips.map tmp) cpp i).map FsEvent.remove ++
            [FsEvent.write (partPath out i)])).flatten, false) := by
  simp only [generate_pdf_with_size_limit, hm, Bool.true_eq_false, if_false, hsz, if_neg,
    save_pdf_full, List.length_map, List.append_assoc]
  rw [hcpp, if_neg hne]
  simp [save_pdf_part _ _ _ _ _ hne]

theorem partSlice_zero (cards : List String) (cpp : ℕ) :
    partSlice cards cpp 0 = cards.take cpp := by
  simp [partSlice]

theorem partSlice_succ (cards : List String) (cpp i : ℕ) :
    partSlice cards cpp (i + 1) = partSlice (cards.drop cpp) cpp i := by
  simp only [partSlice, List.drop_drop]
  have h : cpp + i * cpp = (i + 1) * cpp := by ring
  rw [h]

theorem totalParts_drop (len cpp t : ℕ) (hcpp : 0 < cpp)
    (hT : totalPartsOf len cpp = t + 1) : totalPartsOf (len - cpp) cpp = t := by
  unfold totalPartsOf at hT ⊢
  rcases le_or_lt cpp len with hle | hlt
  · have h1 : len + cpp - 1 = (len - 1) + cpp := by omega
    rw [h1, Nat.add_div_right _ hcpp] at hT
    have h2 : len - cpp + cpp - 1 = len - 1 := by omega
    rw [h2]
    omega
  · have h2 : (len + cpp - 1) / cpp ≤ 1 := by
      have := (Nat.div_lt_iff_lt_mul hcpp).mpr (show len + cpp - 1 < 2 * cpp by omega)
      omega
    have ht0 : t = 0 := by omega
    have h1 : len - cpp = 0 := by omega
    rw [ht0, h1]
    have h3 : 0 + cpp - 1 = cpp - 1 := by omega
    rw [h3]
    exact Nat.div_eq_of_lt (by omega)

theorem parts_flatten (cpp : ℕ) (hcpp : 1 ≤ cpp) :
    ∀ (T : ℕ) (cards : List String), totalPartsOf cards.length cpp = T →
      ((List.range T).map (partSlice cards cpp)).flatten = cards := by
  intro T
  induction T with
  | zero =>
    intro cards hT
    have hlen : cards.length = 0 := by
      unfold totalPartsOf at hT
      rcases Nat.eq_zero_or_pos cards.length with h | h
      · exact h
      · exfalso
        have : cards.length + cpp - 1 < cpp := by
          by_contra hc
          have := Nat.le_div_iff_mul_le (by omega : 0 < cpp) |>.mpr
            (by omega : 1 * cpp ≤ cards.length + cpp - 1)
          omega
        omega
    rw [List.length_eq_zero.mp hlen]
    simp
  | succ t ih =>
    intro cards hT
    rw [List.range_succ_eq_map, List.map_cons, List.map_map, List.flatten_cons]
    have hmap : (List.range t).map (partSlice cards cpp ∘ Nat.succ) =
        (List.range t).map (partSlice (cards.drop cpp) cpp) := by
      apply List.map_congr_left
      intro i _
      exact partSlice_succ cards cpp i
    rw [hmap, partSlice_zero,
      ih (cards.drop cpp) (by rw [List.length_drop]; exact totalParts_drop _ _ _ hcpp hT)]
    exact List.take_append_drop cpp cards

theorem CARDS_PER_ROW_eq : CARDS_PER_ROW = 3 := by
  have h : (⌊PAGE_WIDTH / CARD_WIDTH⌋) = 3 := by
    unfold PAGE_WIDTH CARD_WIDTH inchPt
    norm_num
  unfold CARDS_PER_ROW
  rw [h]
  rfl

theorem CARDS_PER_COL_eq : CARDS_PER_COL = 3 := by
  have h : (⌊PAGE_HEIGHT / CARD_HEIGHT⌋) = 3 := by
    unfold PAGE_HEIGHT CARD_HEIGHT inchPt
    norm_num
  unfold CARDS_PER_COL
  rw [h]
  rfl

theorem cardState_eq (i : ℕ) :
    cardState i = ⟨i % 9 % 3, i % 9 / 3, i / 9⟩ := by
  induction i with
  | zero => rfl
  | succ n ih =>
    have h : cardState (n + 1) = gridStep (cardState n) := by
      unfold cardState
      rw [Function.iterate_succ_apply']
    rw [h, ih]
    simp only [gridStep, CARDS_PER_ROW_eq, CARDS_PER_COL_eq]
    split <;> first
      | (split <;> (simp only [GridState.mk.injEq] ; refine ⟨?_, ?_, ?_⟩ <;> omega))
      | (simp only [GridState.mk.injEq] ; refine ⟨?_, ?_, ?_⟩ <;> omega)

theorem drawLoop_length (cards : List String) (s : GridState) :
    (drawLoop cards s).length = cards.length := by
  induction cards generalizing s with
  | nil => rfl
  | cons c cs ih => simp [drawLoop, ih]

theorem drawLoop_get (cards : List String) :
    ∀ (s : GridState) (i : ℕ) (h1 : i < (drawLoop cards s).length) (h2 : i < cards.length),
      (drawLoop cards s).get ⟨i, h1⟩ =
        (cards.get ⟨i, h2⟩, margin_x + (gridStep^[i] s).x * CARD_WIDTH,
         PAGE_HEIGHT - margin_y - ((gridStep^[i] s).y + 1) * CARD_HEIGHT,
         (gridStep^[i] s).page) := by
  induction cards with
  | nil =>
    intro s i h1 h2
    simp at h2
  | cons c cs ih =>
    intro s i h1 h2
    cases i with
    | zero => simp [drawLoop]
    | succ n =>
      simp only [drawLoop, List.get_cons_succ]
      rw [ih (gridStep s) n (by simpa [drawLoop_length] using h2) (by simpa using h2)]
      simp [Function.iterate_succ_apply]

theorem qfGo_append_ok :
    ∀ (pre : List String) (m0 m1 : QMap) (suf : List String),
      qfGo pre m0 = (m1, false) → qfGo (pre ++ suf) m0 = qfGo suf m1 := by
  intro pre
  induction pre with
  | nil =>
    intro m0 m1 suf h
    simp only [qfGo] at h
    obtain ⟨rfl, -⟩ := Prod.mk.injEq .. ▸ h
    rfl
  | cons l rest ih =>
    intro m0 m1 suf h
    cases hl : qfLine l with
    | none =>
      rw [List.cons_append]
      simp only [qfGo, hl] at h
      exact absurd (congrArg Prod.snd h) (by simp)
    | some o =>
      cases o with
      | none =>
        rw [List.cons_append]
        simp only [qfGo, hl] at h ⊢
        exact ih _ _ _ h
      | some kv =>
        rw [List.cons_append]
        simp only [qfGo, hl] at h ⊢
        exact ih _ _ _ h

theorem qfGo_error (l : String) (rest : List String) (m : QMap) (h : qfLine l = none) :
    qfGo (l :: rest) m = (m, true) := by
  simp [qfGo, h]

theorem totalParts_eq_ceil (n cpp : ℕ) (hcpp : 0 < cpp) :
    (totalPartsOf n cpp : ℤ) = ⌈(n : ℚ) / (cpp : ℚ)⌉ := by
  obtain ⟨c1, rfl⟩ : ∃ c1, cpp = c1 + 1 := ⟨cpp - 1, by omega⟩
  have hd : n + (c1 + 1) - 1 = n + c1 := by omega
  have key := Nat.div_add_mod (n + c1) (c1 + 1)
  have hr : (n + c1) % (c1 + 1) < c1 + 1 := Nat.mod_lt _ (by omega)
  unfold totalPartsOf
  rw [hd]
  set q := (n + c1) / (c1 + 1) with hq
  set r := (n + c1) % (c1 + 1) with hrdef
  have keyQ : ((c1 : ℚ) + 1) * q + r = (n : ℚ) + c1 := by exact_mod_cast key
  have hrQ : (r : ℚ) ≤ c1 := by exact_mod_cast Nat.lt_succ_iff.mp hr
  have hcQ : (0 : ℚ) < (c1 : ℚ) + 1 := by positivity
  rw [eq_comm, Int.ceil_eq_iff]
  push_cast
  constructor
  · rw [lt_div_iff₀ hcQ]
    nlinarith [keyQ, hrQ]
  · rw [div_le_iff₀ hcQ]
    nlinarith [keyQ, hrQ]

theorem flatten_map_replicate_one (g : String → Int) :
    ∀ (l : List String), (∀ f ∈ l, g f = 1) →
      (l.map (fun f => List.replicate (g f).toNat f)).flatten = l := by
  intro l
  induction l with
  | nil => intro _; rfl
  | cons c cs ih =>
    intro h
    rw [List.map_cons, List.flatten_cons, h c (List.mem_cons_self c cs),
      ih (fun f hf => h f (List.mem_cons_of_mem c hf))]
    rfl

theorem collectLevel_qty_one (qm : QMap) (files : List String)
    (h1 : ∀ f ∈ files, isImageFile f = true → resolve_qty qm f = 1) :
    collectLevel qm files = (files.insertionSort keyLe).filter (fun f => isImageFile f) := by
  unfold collectLevel
  apply flatten_map_replicate_one
  intro f hf
  exact h1 f ((List.perm_insertionSort keyLe files).mem_iff.mp (List.mem_of_mem_filter hf))
    (List.of_mem_filter hf)

theorem insertionSort_eq_of_perm (files files2 : List String)
    (hp : List.Perm files2 files) (hnd : (files.map lowStr).Nodup) :
    files2.insertionSort keyLe = files.insertionSort keyLe := by
  haveI : IsAntisymm String (fun a b => lowStr a < lowStr b) :=
    ⟨fun a b h1 h2 => absurd (h1.trans h2) (lt_irrefl _)⟩
  have sortNodup : ∀ (l : List String), List.Perm l files →
      (l.insertionSort keyLe).Pairwise (fun a b => lowStr a < lowStr b) := by
    intro l hl
    have hperm : List.Perm (l.insertionSort keyLe) files := (List.perm_insertionSort keyLe l).trans hl
    have hnd2 : ((l.insertionSort keyLe).map lowStr).Nodup :=
      (hperm.map lowStr).nodup_iff.mpr hnd
    have hne : (l.insertionSort keyLe).Pairwise (fun a b => lowStr a ≠ lowStr b) :=
      List.pairwise_map.mp hnd2
    have hle : (l.insertionSort keyLe).Pairwise keyLe := List.sorted_insertionSort keyLe l
    exact (hle.and hne).imp (fun h => lt_of_le_of_ne h.1 h.2)
  exact List.eq_of_perm_of_sorted
    (((List.perm_insertionSort keyLe files2).trans hp).trans
      (List.perm_insertionSort keyLe files).symm)
    (sortNodup files2 hp) (sortNodup files (List.Perm.refl files))

/-! Concrete-scenario evaluations of the split arithmetic. -/

theorem cppScenarioA : cardsPerPartOf (1 * MB) 1400000 2 = 1 := by
  have h : ⌊((1 * MB : ℕ) : ℚ) / avgCardSize 1400000 2⌋ = 1 := by
    unfold MB avgCardSize
    norm_num
  unfold cardsPerPartOf
  rw [h]
  rfl

theorem cppScenarioB : cardsPerPartOf (1 * MB) 1800000 3 = 1 := by
  have h : ⌊((1 * MB : ℕ) : ℚ) / avgCardSize 1800000 3⌋ = 1 := by
    unfold MB avgCardSize
    norm_num
  unfold cardsPerPartOf
  rw [h]
  rfl

theorem cppScenarioC : cardsPerPartOf (1 * MB) 1100000 2 = 1 := by
  have h : ⌊((1 * MB : ℕ) : ℚ) / avgCardSize 1100000 2⌋ = 1 := by
    unfold MB avgCardSize
    norm_num
  unfold cardsPerPartOf
  rw [h]
  rfl

theorem avgScenarioD : ((1 * MB : ℕ) : ℚ) < avgCardSize 3000000 1 := by
  unfold MB avgCardSize
  norm_num

/-! Claim theorems. -/

/-- C1, counterexample to the naming clause: with output path `a.pdf.pdf`
(which `main` itself produces for a folder named `a.pdf`) and a measured size
of 1400000 bytes for two cards under a 1 MB cap, the split pass writes
`a-part1.pdf-part1.pdf` — `str.replace` substitutes every occurrence of
`.pdf` — and no file named by replacing only the `.pdf` suffix is written. -/
theorem C1_cx :
    FsEvent.write ("a-part1.pdf-part1.pdf") ∈
      (generate_pdf_with_size_limit (fun l => 700000 * l.length) (fun s => s ++ ".tmp")
        ["i1", "i2"] ("a.pdf.pdf") (some 1)).1
    ∧ FsEvent.write ("a.pdf-part1.pdf") ∉
      (generate_pdf_with_size_limit (fun l => 700000 * l.length) (fun s => s ++ ".tmp")
        ["i1", "i2"] ("a.pdf.pdf") (some 1)).1
    ∧ FsEvent.write ("a.pdf-part2.pdf") ∉
      (generate_pdf_with_size_limit (fun l => 700000 * l.length) (fun s => s ++ ".tmp")
        ["i1", "i2"] ("a.pdf.pdf") (some 1)).1 := by
  have h1 : pyTruthy (some 1) = true := by decide
  have h2 : ¬ (fun (l : List String) => 700000 * l.length)
      (["i1", "i2"].map (fun s => s ++ ".tmp")) ≤ (some 1).getD 0 * MB := by decide
  have htrace := gen_split (fun l => 700000 * l.length) (fun s => s ++ ".tmp") ["i1", "i2"]
    ("a.pdf.pdf") (some 1) 1 h1 h2 cppScenarioA (by decide)
  rw [htrace]
  decide

/-- C1, amended: when a cap of `M` MB is configured and the measured size
exceeds it, the emitter computes `cardsPerPart = floor(capBytes / (totalSize /
cardCount))` and `totalParts = (cardCount + cardsPerPart - 1) div cardsPerPart
= ceil(cardCount / cardsPerPart)`, and performs exactly `totalParts` part
writes, the `i`-th (1-based) to the path obtained from the base output path by
replacing every occurrence of the substring `.pdf` with `-part{i}.pdf` (which
is suffix replacement exactly when `.pdf` occurs only as the suffix). The
claim is stated for the case the split plan is well defined
(`cardsPerPart ≠ 0`; the contrary case is C9). -/
theorem C1_split_parts (so : List String → ℕ) (tmp : String → String)
    (ips : List String) (out : String) (M cpp : ℕ) (hM : M ≠ 0)
    (hsz : M * MB < so (ips.map tmp))
    (hcpp : cardsPerPartOf (M * MB) (so (ips.map tmp)) ips.length = cpp)
    (hne : cpp ≠ 0) :
    generate_pdf_with_size_limit so tmp ips out (some M) =
      ((ips.map tmp).map FsEvent.write ++ [FsEvent.write out] ++
        ((List.range (totalPartsOf ips.length cpp)).map
          (fun i => (partSlice (ips.map tmp) cpp i).map FsEvent.remove ++
            [FsEvent.write (partPath out i)])).flatten, false)
    ∧ (totalPartsOf ips.length cpp : ℤ) = ⌈(ips.length : ℚ) / (cpp : ℚ)⌉ := by
  constructor
  · apply gen_split so tmp ips out (some M) cpp
    · simp [pyTruthy, hM]
    · exact not_le.mpr hsz
    · exact hcpp
    · exact hne
  · exact totalParts_eq_ceil _ _ (Nat.pos_of_ne_zero hne)

/-- C1 witness: three cards of 600000 bytes average under a 1 MB cap split
into three single-card parts `o-part1.pdf`, `o-part2.pdf`, `o-part3.pdf`. -/
theorem C1_split_parts_witness :
    cardsPerPartOf (1 * MB) 1800000 3 = 1
    ∧ generate_pdf_with_size_limit (fun l => 600000 * l.length) (fun s => s ++ "~")
        ["a", "b", "c"] ("o.pdf") (some 1) =
      (((["a", "b", "c"] : List String).map (fun s => s ++ "~")).map FsEvent.write ++
        [FsEvent.write ("o.pdf")] ++
        ((List.range (totalPartsOf (["a", "b", "c"] : List String).length 1)).map
          (fun i => (partSlice ((["a", "b", "c"] : List String).map (fun s => s ++ "~")) 1 i).map
            FsEvent.remove ++ [FsEvent.write (partPath ("o.pdf") i)])).flatten, false)
    ∧ (totalPartsOf (["a", "b", "c"] : List String).length 1 : ℤ) =
        ⌈((["a", "b", "c"] : List String).length : ℚ) / ((1 : ℕ) : ℚ)⌉ :=
  ⟨cppScenarioB,
    (C1_split_parts (fun l => 600000 * l.length) (fun s => s ++ "~") ["a", "b", "c"]
      ("o.pdf") 1 1 (by decide) (by decide) cppScenarioB (by decide)).1,
    (C1_split_parts (fun l => 600000 * l.length) (fun s => s ++ "~") ["a", "b", "c"]
      ("o.pdf") 1 1 (by decide) (by decide) cppScenarioB (by decide)).2⟩

/-- C2: for any deck and any `cardsPerPart ≥ 1`, the parts taken by
`save_pdf`'s slicing (`partSlice`) over the part indices `0 ..
totalParts - 1` are contiguous slices of length `cardsPerPart` (the last
possibly shorter), and their concatenation in part order is exactly the
original deck: no card omitted, duplicated, or reordered. -/
theorem C2_parts_concat (cards : List String) (cpp : ℕ) (h : 1 ≤ cpp) :
    ((List.range (totalPartsOf cards.length cpp)).map (partSlice cards cpp)).flatten = cards :=
  parts_flatten cpp h _ cards rfl

/-- C2 witness: five cards at two per part concatenate back to the deck. -/
theorem C2_parts_concat_witness :
    (1 : ℕ) ≤ 2
    ∧ ((List.range (totalPartsOf (["a", "b", "c", "d", "e"] : List String).length 2)).map
        (partSlice ["a", "b", "c", "d", "e"] 2)).flatten = ["a", "b", "c", "d", "e"] :=
  ⟨by decide, C2_parts_concat ["a", "b", "c", "d", "e"] 2 (by decide)⟩

/-- C3: in the drawing loop of `save_pdf`, the card at sequence index `i` is
drawn on page `i / (R*C)`, in row `(i % (R*C)) / C` and column
`(i % (R*C)) % C` (with `C = CARDS_PER_ROW` columns and `R = CARDS_PER_COL`
rows, integer division), at position `x = margin_x + col * CARD_WIDTH`,
`y = PAGE_HEIGHT - margin_y - (row + 1) * CARD_HEIGHT`, where each margin is
the symmetric `(page dimension - total grid dimension) / 2`. -/
theorem C3_grid_placement (cards : List String) (i : ℕ) (h : i < cards.length) :
    (drawLoop cards ⟨0, 0, 0⟩).get ⟨i, by rwa [drawLoop_length]⟩ =
      (cards.get ⟨i, h⟩,
       margin_x + (↑(i % (CARDS_PER_ROW * CARDS_PER_COL) % CARDS_PER_ROW) : ℚ) * CARD_WIDTH,
       PAGE_HEIGHT - margin_y -
         ((↑(i % (CARDS_PER_ROW * CARDS_PER_COL) / CARDS_PER_ROW) : ℚ) + 1) * CARD_HEIGHT,
       i / (CARDS_PER_ROW * CARDS_PER_COL))
    ∧ margin_x = (PAGE_WIDTH - CARDS_PER_ROW * CARD_WIDTH) / 2
    ∧ margin_y = (PAGE_HEIGHT - CARDS_PER_COL * CARD_HEIGHT) / 2 := by
  refine ⟨?_, rfl, rfl⟩
  rw [drawLoop_get cards ⟨0, 0, 0⟩ i (by rwa [drawLoop_length]) h]
  have hcs : gridStep^[i] (⟨0, 0, 0⟩ : GridState) = cardState i := rfl
  rw [hcs, cardState_eq, CARDS_PER_ROW_eq, CARDS_PER_COL_eq]

/-- C3 witness: the tenth card of a twelve-card deck lands on page 1, row 0,
column 0. -/
theorem C3_grid_placement_witness :
    (9 : ℕ) < (["c0", "c1", "c2", "c3", "c4", "c5", "c6", "c7", "c8", "c9", "cA", "cB"] :
      List String).length
    ∧ (drawLoop ["c0", "c1", "c2", "c3", "c4", "c5", "c6", "c7", "c8", "c9", "cA", "cB"]
        ⟨0, 0, 0⟩).get ⟨9, by rw [drawLoop_length] ; decide⟩ =
      ((["c0", "c1", "c2", "c3", "c4", "c5", "c6", "c7", "c8", "c9", "cA", "cB"] :
          List String).get ⟨9, by decide⟩,
       margin_x + (↑(9 % (CARDS_PER_ROW * CARDS_PER_COL) % CARDS_PER_ROW) : ℚ) * CARD_WIDTH,
       PAGE_HEIGHT - margin_y -
         ((↑(9 % (CARDS_PER_ROW * CARDS_PER_COL) / CARDS_PER_ROW) : ℚ) + 1) * CARD_HEIGHT,
       9 / (CARDS_PER_ROW * CARDS_PER_COL)) :=
  ⟨by decide,
    (C3_grid_placement ["c0", "c1", "c2", "c3", "c4", "c5", "c6", "c7", "c8", "c9", "cA", "cB"]
      9 (by decide)).1⟩

/-- C4, counterexample to the sidecar example: the base name of `foo-x3.png`
is `foo-x3`, not `foo`, so a sidecar entry `foo → 5` is not consulted and the
embedded pattern yields 3, not the claimed 5. -/
theorem C4_cx :
    resolve_qty [(("foo" : String), (5 : Int))] ("foo-x3.png") = 3 ∧ (3 : Int) ≠ 5 :=
  ⟨by decide, by decide⟩

/-- C4, amended: the resolved quantity is the QuantityMap's value for the
filename's base name (extension stripped) when that exact key is present,
else `N` for an embedded `-x<N>` pattern, else 1. In particular `foo-x3.png`
resolves to 3 with no sidecar entry, still to 3 when the sidecar maps `foo`
to 5 (the base name is `foo-x3`, so the entry is ignored), and to 5 when the
sidecar maps `foo-x3` to 5. -/
theorem C4_priority :
    (∀ (qm : QMap) (f : String) (q : Int),
      List.lookup (splitextBase f) qm = some q → resolve_qty qm f = q)
    ∧ (∀ (qm : QMap) (f : String),
      List.lookup (splitextBase f) qm = none →
        resolve_qty qm f = (parse_quantity_from_name f : Int))
    ∧ resolve_qty [] ("foo-x3.png") = 3
    ∧ resolve_qty [(("foo" : String), (5 : Int))] ("foo-x3.png") = 3
    ∧ resolve_qty [(("foo-x3" : String), (5 : Int))] ("foo-x3.png") = 5
    ∧ resolve_qty [] ("bar.png") = 1 := by
  refine ⟨?_, ?_, by decide, by decide, by decide, by decide⟩
  · intro qm f q hq
    unfold resolve_qty
    rw [hq]
  · intro qm f hq
    unfold resolve_qty
    rw [hq]

/-- C4 witness: a present base-name key wins. -/
theorem C4_priority_witness :
    List.lookup (splitextBase ("a.png")) [(("a" : String), (7 : Int))] = some 7
    ∧ resolve_qty [(("a" : String), (7 : Int))] ("a.png") = 7 :=
  ⟨by decide, C4_priority.1 [(("a" : String), (7 : Int))] ("a.png") 7 (by decide)⟩

/-- C5, counterexample: a sidecar whose first line parses and whose second
line fails (`b,x` has a comma but a non-integer quantity) makes
`parse_quantity_file` warn and return the partially filled map `{a: 2}` — not
the empty map the claim asserts. -/
theorem C5_cx :
    parse_quantity_file (some ["a,2", "b,x"]) = ([(("a" : String), (2 : Int))], true)
    ∧ (parse_quantity_file (some ["a,2", "b,x"])).1 ≠ [] :=
  ⟨by decide, by decide⟩

/-- C5, amended: when the file cannot be read, `parse_quantity_file` warns
and returns the empty map; when a line fails to parse (beyond the skipped
comma-less lines), it warns and returns the entries accumulated before the
failing line — a possibly non-empty partial map — and in neither case does it
abort. -/
theorem C5_partial_map :
    parse_quantity_file none = ([], true)
    ∧ ∀ (pre : List String) (l : String) (rest : List String) (m1 : QMap),
        qfGo pre [] = (m1, false) → qfLine l = none →
          parse_quantity_file (some (pre ++ l :: rest)) = (m1, true) := by
  refine ⟨rfl, ?_⟩
  intro pre l rest m1 hok herr
  show qfGo (pre ++ l :: rest) [] = (m1, true)
  rw [qfGo_append_ok pre [] m1 _ hok, qfGo_error _ _ _ herr]

/-- C5 witness: one good line before the failing line survives into the
returned map; lines after the failure are not processed. -/
theorem C5_partial_map_witness :
    qfGo ["a,2"] [] = ([(("a" : String), (2 : Int))], false)
    ∧ qfLine ("b,x") = none
    ∧ parse_quantity_file (some (["a,2"] ++ ("b,x") :: ["c,4"])) =
        ([(("a" : String), (2 : Int))], true) :=
  ⟨by decide, by decide,
    C5_partial_map.2 ["a,2"] ("b,x") ["c,4"] [(("a" : String), (2 : Int))]
      (by decide) (by decide)⟩

/-- C6: with no size cap configured, the run writes the temp artifact and the
output PDF and performs no removal at all — the temp artifact `img1.png~` is
never deleted, contradicting the claim that all temp artifacts are removed
(the cleanup of lines 119-121 runs only in the accepted-cap branch, and the
in-loop removal of line 77 only when a part index is set). -/
theorem C6_no_cleanup :
    generate_pdf_with_size_limit (fun l => 10 * l.length) (fun s => s ++ "~") ["img1.png"]
        ("out.pdf") none =
      ([FsEvent.write ("img1.png~"), FsEvent.write ("out.pdf")], false)
    ∧ FsEvent.remove ("img1.png~") ∉
        (generate_pdf_with_size_limit (fun l => 10 * l.length) (fun s => s ++ "~") ["img1.png"]
          ("out.pdf") none).1 :=
  ⟨by decide, by decide⟩

/-- C7: when the cap is configured and exceeded (two cards measuring 1100000
bytes against a 1 MB cap), the measuring pass still writes the full oversized
PDF to the base output path `b.pdf` — `save_pdf` writes its buffer to disk
unconditionally — so the base path is written alongside the part files,
contradicting the claim that it is written only in the accepted state. -/
theorem C7_base_path_written :
    generate_pdf_with_size_limit (fun l => 550000 * l.length) (fun s => s ++ "~") ["p", "q"]
        ("b.pdf") (some 1) =
      ([FsEvent.write ("p~"), FsEvent.write ("q~"), FsEvent.write ("b.pdf"),
        FsEvent.remove ("p~"), FsEvent.write ("b-part1.pdf"),
        FsEvent.remove ("q~"), FsEvent.write ("b-part2.pdf")], false)
    ∧ ¬ (fun (l : List String) => 550000 * l.length)
        (["p", "q"].map (fun s => s ++ "~")) ≤ 1 * MB
    ∧ FsEvent.write ("b.pdf") ∈
        (generate_pdf_with_size_limit (fun l => 550000 * l.length) (fun s => s ++ "~")
          ["p", "q"] ("b.pdf") (some 1)).1 := by
  have h1 : pyTruthy (some 1) = true := by decide
  have h2 : ¬ (fun (l : List String) => 550000 * l.length)
      (["p", "q"].map (fun s => s ++ "~")) ≤ (some 1).getD 0 * MB := by decide
  have htrace := gen_split (fun l => 550000 * l.length) (fun s => s ++ "~") ["p", "q"]
    ("b.pdf") (some 1) 1 h1 h2 cppScenarioC (by decide)
  rw [htrace]
  refine ⟨by decide, by decide, by decide⟩

/-- C8: when every image in a directory level resolves to quantity 1, the
collector returns exactly one entry per image file (a permutation of the
image-filtered file list), the entries are in case-insensitively ascending
filename order, and — whenever no two names collide case-insensitively — the
result is identical for any enumeration order of the directory. -/
theorem C8_collect_sorted (qm : QMap) (files : List String)
    (h1 : ∀ f ∈ files, isImageFile f = true → resolve_qty qm f = 1) :
    List.Perm (collectLevel qm files) (files.filter (fun f => isImageFile f))
    ∧ (collectLevel qm files).Pairwise keyLe
    ∧ ∀ files2 : List String, List.Perm files2 files → (files.map lowStr).Nodup →
        collectLevel qm files2 = collectLevel qm files := by
  refine ⟨?_, ?_, ?_⟩
  · rw [collectLevel_qty_one qm files h1]
    exact (List.perm_insertionSort keyLe files).filter _
  · rw [collectLevel_qty_one qm files h1]
    have hs : (files.insertionSort keyLe).Pairwise keyLe := List.sorted_insertionSort keyLe files
    exact hs.sublist (List.filter_sublist _)
  · intro files2 hp hnd
    unfold collectLevel
    rw [insertionSort_eq_of_perm files files2 hp hnd]

/-- C8 witness: two images and a text file, all quantity 1, collected in
case-insensitive order regardless of enumeration order. -/
theorem C8_collect_sorted_witness :
    (∀ f ∈ (["B.png", "a.png", "notes.txt"] : List String),
      isImageFile f = true → resolve_qty [] f = 1)
    ∧ List.Perm (collectLevel [] ["B.png", "a.png", "notes.txt"])
        ((["B.png", "a.png", "notes.txt"] : List String).filter (fun f => isImageFile f))
    ∧ (collectLevel [] ["B.png", "a.png", "notes.txt"]).Pairwise keyLe
    ∧ collectLevel [] ["a.png", "notes.txt", "B.png"] =
        collectLevel [] ["B.png", "a.png", "notes.txt"] :=
  ⟨by decide,
    (C8_collect_sorted [] ["B.png", "a.png", "notes.txt"] (by decide)).1,
    (C8_collect_sorted [] ["B.png", "a.png", "notes.txt"] (by decide)).2.1,
    (C8_collect_sorted [] ["B.png", "a.png", "notes.txt"] (by decide)).2.2
      ["a.png", "notes.txt", "B.png"] (by decide) (by decide)⟩

/-- C9: if a cap is configured, the measured size exceeds it, and the average
bytes-per-card itself exceeds the cap in bytes, then `cards_per_part`
computes to 0 and the `total_parts` division (line 127) divides by zero: the
run aborts with the unhandled `ZeroDivisionError` (flag `true`), after only
the temp writes and the measuring write — no part file is written. -/
theorem C9_split_div_zero (so : List String → ℕ) (tmp : String → String)
    (ips : List String) (out : String) (M : ℕ) (hM : M ≠ 0)
    (hsz : M * MB < so (ips.map tmp))
    (havg : ((M * MB : ℕ) : ℚ) < avgCardSize (so (ips.map tmp)) ips.length) :
    generate_pdf_with_size_limit so tmp ips out (some M) =
      ((ips.map tmp).map FsEvent.write ++ [FsEvent.write out], true) := by
  apply gen_abort
  · simp [pyTruthy, hM]
  · exact not_le.mpr hsz
  · show cardsPerPartOf (M * MB) (so (ips.map tmp)) ips.length = 0
    unfold cardsPerPartOf
    have h0 : (0 : ℚ) ≤ ((M * MB : ℕ) : ℚ) := by positivity
    have hapos : (0 : ℚ) < avgCardSize (so (ips.map tmp)) ips.length := lt_of_le_of_lt h0 havg
    have hfl : ⌊((M * MB : ℕ) : ℚ) / avgCardSize (so (ips.map tmp)) ips.length⌋ = 0 := by
      rw [Int.floor_eq_zero_iff]
      refine Set.mem_Ico.mpr ⟨div_nonneg h0 (le_of_lt hapos), ?_⟩
      exact (div_lt_one hapos).mpr havg
    rw [hfl]
    rfl

/-- C9 witness: a single card measuring 3000000 bytes against a 1 MB cap:
average exceeds the cap, `cards_per_part = 0`, and the run aborts having
written only the temp artifact and the measuring output. -/
theorem C9_split_div_zero_witness :
    (1 : ℕ) ≠ 0
    ∧ 1 * MB < 3000000
    ∧ generate_pdf_with_size_limit (fun l => 3000000 * l.length) (fun s => s ++ "~")
        ["big.png"] ("o.pdf") (some 1) =
      (((["big.png"] : List String).map (fun s => s ++ "~")).map FsEvent.write ++
        [FsEvent.write ("o.pdf")], true) :=
  ⟨by decide, by decide,
    C9_split_div_zero (fun l => 3000000 * l.length) (fun s => s ++ "~") ["big.png"]
      ("o.pdf") 1 (by decide) (by decide) avgScenarioD⟩

/-- C10: a sidecar entry mapping an image's base name to zero or a negative
integer makes `range(qty)` empty, so the collector emits no entry for that
image — it never appears in the collected deck — and, the collector being a
total function, the run continues with no error. -/
theorem C10_nonpositive_omitted (qm : QMap) (f : String) (files : List String) (q : Int)
    (hq : List.lookup (splitextBase f) qm = some q) (h0 : q ≤ 0) :
    f ∉ collectLevel qm files := by
  intro hmem
  unfold collectLevel at hmem
  rw [List.mem_flatten] at hmem
  obtain ⟨l, hl, hfl⟩ := hmem
  rw [List.mem_map] at hl
  obtain ⟨g, hg, rfl⟩ := hl
  rw [List.mem_replicate] at hfl
  obtain ⟨hne, rfl⟩ := hfl
  apply hne
  have hr : resolve_qty qm f = q := by
    unfold resolve_qty
    rw [hq]
  rw [hr, Int.toNat_of_nonpos h0]

/-- C10 witness: `bad.png` mapped to 0 is silently omitted while its sibling
is collected. -/
theorem C10_nonpositive_omitted_witness :
    List.lookup (splitextBase ("bad.png")) [(("bad" : String), (0 : Int))] = some 0
    ∧ (0 : Int) ≤ 0
    ∧ ("bad.png") ∉ collectLevel [(("bad" : String), (0 : Int))] ["bad.png", "ok.png"] :=
  ⟨by decide, by decide,
    C10_nonpositive_omitted [(("bad" : String), (0 : Int))] ("bad.png")
      ["bad.png", "ok.png"] 0 (by decide) (by decide)⟩
